import Mathlib

/-!
Verification development for the Quantity repository (unit algebra and
conversion engine).  Each definition is a shallow embedding of the
corresponding C++ entity; `double` values are modelled as exact real
numbers, C++ `int` as unbounded `Int` (no claim under study depends on
machine-word overflow), and throwing functions return `Except String`.
-/

namespace Quantity

/-! ## Rational exponent (src/src/Exponent.cpp, class ExponentImpl) -/

/-- The C++ `ExponentImpl`: integer numerator and denominator (src/src/Exponent.cpp
lines 34-38).  The validating constructor keeps the denominator positive and
the fraction reduced; raw structures can hold any pair, mirroring the C++
object before/outside construction. -/
structure ExponentImpl where
  numer : Int
  denom : Int
  deriving DecidableEq, Repr

/-- The C++ `ExponentImpl::gcd` (Exponent.cpp lines 46-71): Euclidean algorithm on the
absolute values; returns the non-negative gcd (`gcd 0 0 = 0`).  The loop
`rem = a - (a/b)*b` on non-negative ints is exactly the Euclidean remainder,
so the function equals `Int.gcd`. -/
def expGcd (n1 n2 : Int) : Int :=
  (Int.gcd n1 n2 : Int)

/-- The C++ `ExponentImpl::sign` (Exponent.cpp lines 78-81): `(i > 0) - (i < 0)`. -/
def signI (i : Int) : Int :=
  (if 0 < i then 1 else 0) - (if i < 0 then 1 else 0)

/-- The validating constructor `ExponentImpl(n, d)` (Exponent.cpp lines
95-111): throws when the denominator is zero, then normalizes the sign onto
the numerator and reduces by the gcd. -/
def ExponentImpl.make (n d : Int) : Except String ExponentImpl :=
  if d = 0 then
    .error "Exponent denominator is zero"
  else
    let n' := if d < 0 then -n else n
    let d' := if d < 0 then -d else d
    let div := expGcd n' d'
    .ok ⟨n' / div, d' / div⟩

/-- The C++ `Exponent::isZero` (declared in Exponent.h line 72; in reduced form zero
is represented as 0/1, so the test is on the numerator). -/
def ExponentImpl.isZero (e : ExponentImpl) : Bool :=
  e.numer = 0

/-- The C++ `ExponentImpl::isUnity` / `Exponent::isOne` (Exponent.cpp lines 118-121). -/
def ExponentImpl.isOne (e : ExponentImpl) : Bool :=
  e.numer = 1 && e.denom = 1

/-- The C++ `ExponentImpl::compare` (Exponent.cpp lines 174-193): compares signs
first; when the signs are equal or both are non-negative it compares the
absolute values of the cross-multiplied numerators, otherwise the operand
with the negative numerator is reported greater. -/
def ExponentImpl.compare (a b : ExponentImpl) : Int :=
  let s1 := signI a.numer
  let s2 := signI b.numer
  if s1 = s2 ∨ (0 ≤ s1 ∧ 0 ≤ s2) then
    let n1 := |a.numer * b.denom|
    let n2 := |b.numer * a.denom|
    if n1 < n2 then -1 else if n1 = n2 then 0 else 1
  else if s1 < 0 then 1
  else if s2 < 0 then -1
  else 0

/-- Value semantics of `ExponentImpl::multiply` (Exponent.cpp lines 202-218):
cross-multiply, normalize the sign onto the numerator, reduce by the gcd.
(The C++ member mutates `*this` in place and returns it; the mutation is
modelled explicitly where it matters, via the store in the Dimensionality
embedding below.)  The zero-denominator guard of the C++ code is not
reachable from unit exponents, whose denominators are always positive. -/
def ExponentImpl.multiplyVal (a : ExponentImpl) (n d : Int) : ExponentImpl :=
  let n' := a.numer * n
  let d' := a.denom * d
  let n'' := if d' < 0 then -n' else n'
  let d'' := if d' < 0 then -d' else d'
  let div := expGcd n'' d''
  ⟨n'' / div, d'' / div⟩

/-- Value semantics of `ExponentImpl::add` (Exponent.cpp lines 225-233):
add over the common denominator and reduce by the gcd (no sign
normalization: both stored denominators are positive). -/
def ExponentImpl.addVal (a b : ExponentImpl) : ExponentImpl :=
  let newNumer := a.numer * b.denom + b.numer * a.denom
  let newDenom := a.denom * b.denom
  let div := expGcd newNumer newDenom
  ⟨newNumer / div, newDenom / div⟩

/-- The rational number an exponent denotes. -/
def ExponentImpl.ratVal (e : ExponentImpl) : ℚ :=
  (e.numer : ℚ) / (e.denom : ℚ)

/-- Lexicographic three-way comparison of character lists, the semantics of
`std::string::compare`. -/
def compareChars : List Char → List Char → Int
  | [], [] => 0
  | [], _ :: _ => -1
  | _ :: _, [] => 1
  | c1 :: r1, c2 :: r2 =>
    if c1.toNat < c2.toNat then -1
    else if c2.toNat < c1.toNat then 1
    else compareChars r1 r2

/-- Sign of a C++ three-way string comparison (`std::string::compare`). -/
def strCmp (a b : String) : Int :=
  compareChars a.data b.data

/-! ## Dimension registry (src/src/Dimension.cpp, class Dimension::Impl) -/

/-- The process-wide registries backing `Dimension` construction:
`Dimension::Impl::names` and `Dimension::Impl::symbols`
(Dimension.cpp lines 44-45, 130-131), modelled as explicit state. -/
structure DimRegistry where
  names : List String
  symbols : List String
  deriving DecidableEq, Repr

/-- The constructor `Dimension::Impl::Impl(name, symbol)` (Dimension.cpp lines
54-68) as a state transition: it validates the strings, then inserts the name
into the name registry and, only afterwards, the symbol into the symbol
registry, throwing at the first failure.  A C++ constructor that throws never
runs the destructor, so an insertion performed before the throw stays in the
registry; the returned state is the registry as the exception leaves it. -/
def dimensionConstruct (reg : DimRegistry) (name symbol : String) :
    Except String Unit × DimRegistry :=
  if name.length = 0 then
    (.error "Dimension name is empty", reg)
  else if symbol.length = 0 then
    (.error "Dimension symbol is empty", reg)
  else if name ∈ reg.names then
    -- names.insert(name).second == false; the set is unchanged
    (.error "Dimension name is already in use", reg)
  else
    let reg1 : DimRegistry := { reg with names := name :: reg.names }
    if symbol ∈ reg.symbols then
      -- symbols.insert(symbol).second == false; the name inserted above stays
      (.error "Dimension symbol is already in use", reg1)
    else
      (.ok (), { reg1 with symbols := symbol :: reg1.symbols })

/-! ## Dimensionality (src/src/Dimensionality.cpp, class Dimensionality::Impl)

`Exponent` holds a `shared_ptr<ExponentImpl>` (Exponent.h lines 40-43) and its
default copy shares the pointee, while `Exponent::add`/`multiply` mutate the
pointee in place (Exponent.cpp lines 202-233, 275-286).  To capture this the
embedding gives each live `ExponentImpl` a cell in an explicit store and a
`Dimensionality::Impl` factor map holds cell indices; copying an `Impl` (the
default copy constructor) copies the map and therefore shares the cells. -/

/-- Store of `ExponentImpl` objects; a `shared_ptr<ExponentImpl>` is the index
of its cell. -/
structure ExpStore where
  cells : List ExponentImpl
  deriving DecidableEq, Repr

/-- Dereference a cell. -/
def ExpStore.get (s : ExpStore) (r : Nat) : ExponentImpl :=
  s.cells.getD r ⟨0, 0⟩

/-- Overwrite a cell in place. -/
def ExpStore.set (s : ExpStore) (r : Nat) (e : ExponentImpl) : ExpStore :=
  ⟨s.cells.set r e⟩

/-- The C++ `Dimensionality::Impl::DimInfo` (Dimensionality.cpp lines 44-54): a
dimension name and symbol. -/
structure DimInfo where
  name : String
  symbol : String
  deriving DecidableEq, Repr

/-- The factor map of a `Dimensionality::Impl`
(`map<const DimInfo, Exponent, DimInfoLess>`, Dimensionality.cpp lines 63-73):
an association list ordered by `DimInfoLess` (name only), whose mapped values
are shared `ExponentImpl` cells. -/
abbrev DimFactors := List (DimInfo × Nat)

/-- The C++ `map::find` under `DimInfoLess`: two keys are equivalent exactly when
their names are equal (the symbol is ignored by the comparator). -/
def DimFactors.findName (d : DimFactors) (name : String) : Option Nat :=
  match d with
  | [] => none
  | (k, r) :: rest => if k.name = name then some r else DimFactors.findName rest name

/-- The C++ `map::insert` under `DimInfoLess`: place the factor at its ordered
position (no effect if an equivalent key is present, which callers below
never attempt). -/
def DimFactors.insertOrdered (d : DimFactors) (f : DimInfo × Nat) : DimFactors :=
  match d with
  | [] => [f]
  | (k, r) :: rest =>
    if strCmp f.1.name k.name < 0 then f :: (k, r) :: rest
    else (k, r) :: DimFactors.insertOrdered rest f

/-- The observable value of a factor map: each shared cell dereferenced. -/
def DimFactors.valueIn (d : DimFactors) (s : ExpStore) : List (DimInfo × ExponentImpl) :=
  d.map (fun f => (f.1, s.get f.2))

/-- The C++ `Dimensionality::Impl::multiply` (Dimensionality.cpp lines 188-204): copy
the larger operand's `Impl` (the default copy constructor copies the map, so
the copy shares every `Exponent` cell with that operand) and fold the smaller
operand in: an absent dimension is inserted (sharing the smaller operand's
cell), a present one has `iter->second.add(factor.second)` executed, which
mutates the shared cell in place.  Returns the new map and the store as the
call leaves it. -/
def dimensionalityMultiply (this other : DimFactors) (s : ExpStore) :
    DimFactors × ExpStore :=
  let meLarger := decide (other.length ≤ this.length)   -- size() >= other.size()
  let base := if meLarger then this else other
  let small := if meLarger then other else this
  small.foldl
    (fun acc f =>
      match DimFactors.findName acc.1 f.1.name with
      | none => (DimFactors.insertOrdered acc.1 f, acc.2)
      | some r => (acc.1, acc.2.set r ((acc.2.get r).addVal (acc.2.get f.2))))
    (base, s)

/-- The C++ `Dimensionality::Impl::pow` (Dimensionality.cpp lines 211-219): copy this
`Impl` (again sharing every `Exponent` cell) and run
`factor.second = factor.second.multiply(pow)` over the copy's factors;
`Exponent::multiply` mutates the shared cell and returns the same handle, so
the assignment leaves the map unchanged and the cells updated. -/
def dimensionalityPow (this : DimFactors) (p : ExponentImpl) (s : ExpStore) :
    DimFactors × ExpStore :=
  (this, this.foldl (fun acc f => acc.set f.2 ((acc.get f.2).multiplyVal p.numer p.denom)) s)

/-! ## Unit universe (src/src/Unit.h and the per-kind .cpp files)

The four concrete kinds are `CanonicalUnit` (BASE/CANONICAL/ONE are all
canonical units, distinguished only by `type()`), `AffineUnit`, `RefLogUnit`
and `UnrefLogUnit`.  An affine unit wraps an arbitrary core unit, a
referenced logarithmic unit wraps an arbitrary reference-level unit. -/

/-- The C++ `BaseInfoImpl` (src/src/BaseInfo.cpp lines 35-116): base-unit name and
symbol.  (The associated dimensionality is validated at construction but
never read by the operations under study, so it is omitted.) -/
structure BaseInfoE where
  name : String
  symbol : String
  deriving DecidableEq, Repr

/-- The C++ `BaseInfoImpl::compare` (BaseInfo.cpp lines 112-115): alphabetic
comparison of the symbols only. -/
def BaseInfoE.compare (a b : BaseInfoE) : Int :=
  strCmp a.symbol b.symbol

/-- The C++ `CanonicalUnit::UnitFactors` (src/src/CanonicalUnit.h lines 43-57):
`map<const BaseInfo, Exponent, BaseInfoLess>`, an association list ordered by
`BaseInfoLess` (i.e. by symbol). -/
abbrev UFactors := List (BaseInfoE × ExponentImpl)

/-- The C++ `map::find` under `BaseInfoLess`: keys are equivalent exactly when their
symbols are equal (the comparator reads only the symbol). -/
def UFactors.findSym (fs : UFactors) (sym : String) : Option ExponentImpl :=
  match fs with
  | [] => none
  | (k, e) :: rest => if k.symbol = sym then some e else UFactors.findSym rest sym

/-- The C++ `map::insert` of a key not yet present: place the factor at its ordered
position. -/
def UFactors.insertOrdered (fs : UFactors) (f : BaseInfoE × ExponentImpl) : UFactors :=
  match fs with
  | [] => [f]
  | (k, e) :: rest =>
    if strCmp f.1.symbol k.symbol < 0 then f :: (k, e) :: rest
    else (k, e) :: UFactors.insertOrdered rest f

/-- Overwrite the mapped exponent of a present key. -/
def UFactors.updateSym (fs : UFactors) (sym : String) (e' : ExponentImpl) : UFactors :=
  match fs with
  | [] => []
  | (k, e) :: rest =>
    if k.symbol = sym then (k, e') :: rest else (k, e) :: UFactors.updateSym rest sym e'

/-- The C++ `map::erase` of a present key. -/
def UFactors.eraseSym (fs : UFactors) (sym : String) : UFactors :=
  match fs with
  | [] => []
  | (k, e) :: rest =>
    if k.symbol = sym then rest else (k, e) :: UFactors.eraseSym rest sym

/-- The C++ `CanonicalUnit::multiplyBy(const CanonicalUnit&)` (CanonicalUnit.cpp
lines 219-247): copy this unit's factors (with fresh `Exponent` objects, so
plain values here), then fold the other unit's factors in; a factor whose
base unit is absent is inserted, a present one has the exponents added and,
if the sum is zero, is erased "to maintain the invariant". -/
def canonicalMerge (this other : UFactors) : UFactors :=
  other.foldl
    (fun acc f =>
      match UFactors.findSym acc f.1.symbol with
      | none => UFactors.insertOrdered acc f
      | some e =>
        let newExp := e.addVal f.2
        if newExp.isZero then UFactors.eraseSym acc f.1.symbol
        else UFactors.updateSym acc f.1.symbol newExp)
    this

/-- The C++ `CanonicalUnit::pow` (CanonicalUnit.cpp lines 254-265): rebuild the
factor set with every exponent multiplied by `exp`.  Note that, unlike
`multiplyBy`, no factor is dropped when the product is zero. -/
def canonicalPow (fs : UFactors) (e : ExponentImpl) : UFactors :=
  fs.map (fun f => (f.1, f.2.multiplyVal e.numer e.denom))

/-- The C++ `CanonicalUnit::compareTo(const CanonicalUnit&)` (CanonicalUnit.cpp lines
108-131): walk both ordered factor lists, comparing base units then
exponents; a strict prefix sorts first. -/
def UFactors.compareLex (f1 f2 : UFactors) : Int :=
  match f1, f2 with
  | [], [] => 0
  | [], _ :: _ => -1
  | _ :: _, [] => 1
  | a :: r1, b :: r2 =>
    let cmp := a.1.compare b.1
    if cmp ≠ 0 then cmp
    else
      let cmp2 := a.2.compare b.2
      if cmp2 ≠ 0 then cmp2 else UFactors.compareLex r1 r2

/-- The C++ `CanonicalUnit::isConvertibleTo(const CanonicalUnit&)` (CanonicalUnit.cpp
lines 153-167): equal sizes and pairwise equal base units and exponents. -/
def UFactors.equalFactors (f1 f2 : UFactors) : Bool :=
  match f1, f2 with
  | [], [] => true
  | a :: r1, b :: r2 =>
    a.1.compare b.1 = 0 && a.2.compare b.2 = 0 && UFactors.equalFactors r1 r2
  | _, _ => false

/-- The value form of a `Dimensionality` carried by an unreferenced
logarithmic unit (its factor map with the exponents dereferenced). -/
abbrev DimsVal := List (DimInfo × ExponentImpl)

/-- The C++ `Dimensionality::Impl::compare` (Dimensionality.cpp lines 158-181):
walk both ordered factor lists, comparing names then exponents; a strict
prefix sorts first. -/
def DimsVal.compareLex (d1 d2 : DimsVal) : Int :=
  match d1, d2 with
  | [], [] => 0
  | [], _ :: _ => -1
  | _ :: _, [] => 1
  | a :: r1, b :: r2 =>
    let cmp := strCmp a.1.name b.1.name
    if cmp ≠ 0 then cmp
    else
      let cmp2 := a.2.compare b.2
      if cmp2 ≠ 0 then cmp2 else DimsVal.compareLex r1 r2

/-- The enumeration `Unit::BaseEnum` (Unit.h lines 59-64). -/
inductive LogBase where
  | two
  | e
  | ten
  deriving DecidableEq, Repr

/-- The stored natural logarithm of the base, computed once by the `LogUnit`
constructor (src/src/LogUnit.cpp lines 33-36): `log(2)`, `1`, or `log(10)`. -/
noncomputable def LogBase.logVal : LogBase → ℝ
  | .two => Real.log 2
  | .e => 1
  | .ten => Real.log 10

/-- The closed universe of unit values:
`CanonicalUnit` (an ordered factor map), `AffineUnit` (core, slope,
intercept — `double`s modelled as reals), `RefLogUnit` (reference level and
logarithmic base) and `UnrefLogUnit` (logarithmic base and dimensionality). -/
inductive U where
  | canonical : UFactors → U
  | affine : U → ℝ → ℝ → U
  | reflog : U → LogBase → U
  | unreflog : LogBase → DimsVal → U

/-- Precedence rank of a unit kind (Canonical < Affine < RefLog < UnrefLog);
used only as a termination measure for the double-dispatch deferrals. -/
def U.kindRank : U → Nat
  | .canonical _ => 0
  | .affine _ _ _ => 1
  | .reflog _ _ => 2
  | .unreflog _ _ => 3

/-- The C++ `isDimensionless` per kind: a canonical unit iff its factor set is empty
(CanonicalUnit.cpp lines 85-88), an affine unit defers to its core
(AffineUnit.cpp lines 120-123), both logarithmic kinds answer true
(RefLogUnit.cpp lines 111-114, UnrefLogUnit.cpp lines 95-98). -/
def U.isDimensionless : U → Bool
  | .canonical fs => decide (fs.length = 0)
  | .affine core _ _ => core.isDimensionless
  | .reflog _ _ => true
  | .unreflog _ _ => true

open Classical in
/-- The C++ `isOffset` per kind: false for canonical units (CanonicalUnit.cpp lines
90-93), `intercept != 0` for affine units (AffineUnit.cpp lines 125-128),
false for both logarithmic kinds (RefLogUnit.cpp lines 116-119,
UnrefLogUnit.cpp lines 100-103). -/
noncomputable def U.isOffset : U → Bool
  | .canonical _ => false
  | .affine _ _ intercept => decide (intercept ≠ 0)
  | .reflog _ _ => false
  | .unreflog _ _ => false

mutual

/-- The C++ `Unit::isConvertible` as implemented by each kind: canonical
(CanonicalUnit.cpp lines 148-151), affine (AffineUnit.cpp lines 170-173) and
unreferenced-log (UnrefLogUnit.cpp lines 139-142) units call
`other->isConvertibleTo(*this)`; a referenced logarithmic unit delegates to
its reference level: `refLevel->isConvertible(other)` (RefLogUnit.cpp lines
158-161). -/
def U.isConvertible (this other : U) : Except String Bool :=
  match this with
  | .canonical f => U.isConvertibleTo other (.canonical f)
  | .affine core k b => U.isConvertibleTo other (.affine core k b)
  | .reflog ref _ => U.isConvertible ref other
  | .unreflog lb d => U.isConvertibleTo other (.unreflog lb d)
termination_by 4 * (sizeOf this + sizeOf other) + 4
decreasing_by all_goals (simp_wf; (try simp [U.kindRank]); omega)

/-- The `isConvertibleTo` overload matrix: the receiver (`this`) dispatches
on the argument's kind.  Sources per arm: CanonicalUnit.cpp lines 153-182,
AffineUnit.cpp lines 175-188, RefLogUnit.cpp lines 163-182 (the
`isConvertibleTo(UnrefLogUnit)` overload throws), UnrefLogUnit.cpp lines
144-162.  `AffineUnit::isConvertibleTo(const UnrefLogUnit&)` has no
definition in the source, which is modelled as an error. -/
def U.isConvertibleTo (this arg : U) : Except String Bool :=
  match this, arg with
  | .canonical f, .canonical f' => .ok (UFactors.equalFactors f f')
  | .affine core _ _, .canonical f => U.isConvertibleTo core (.canonical f)
  | .reflog ref _, .canonical f => U.isConvertibleTo ref (.canonical f)
  | .unreflog _ _, .canonical _ => .ok false
  | .canonical f, .affine core' k' b' => U.isConvertibleTo (.affine core' k' b') (.canonical f)
  | .affine core _ _, .affine core' _ _ => U.isConvertible core core'
  | .reflog ref _, .affine core' k' b' => U.isConvertibleTo ref (.affine core' k' b')
  | .unreflog _ _, .affine _ _ _ => .ok false
  | .canonical f, .reflog ref' lb' => U.isConvertibleTo (.reflog ref' lb') (.canonical f)
  | .affine core k b, .reflog ref' lb' => U.isConvertibleTo (.reflog ref' lb') (.affine core k b)
  | .reflog ref _, .reflog ref' _ => U.isConvertible ref ref'
  | .unreflog _ _, .reflog _ _ => .ok false
  | .canonical f, .unreflog lb' d' => U.isConvertibleTo (.unreflog lb' d') (.canonical f)
  | .affine _ _ _, .unreflog _ _ =>
    .error "AffineUnit::isConvertibleTo(UnrefLogUnit) is not defined in the source"
  | .reflog _ _, .unreflog _ _ =>
    .error "Conversion between referenced and unreferenced log units is not possible"
  | .unreflog _ _, .unreflog _ _ => .ok true
termination_by 4 * (sizeOf this + sizeOf arg) + (3 - this.kindRank)
decreasing_by all_goals (simp_wf; (try simp [U.kindRank]); omega)

end

open Classical in
/-- Three-way comparison of two `double`s, as written inline throughout the
comparison members (`a < b ? -1 : a > b ? 1 : 0`). -/
noncomputable def dblCmp (a b : ℝ) : Int :=
  if a < b then -1 else if b < a then 1 else 0

mutual

/-- The C++ `Unit::compare` as implemented identically by every kind:
`-other->compareTo(*this)` (CanonicalUnit.cpp lines 103-106, AffineUnit.cpp
lines 136-139, RefLogUnit.cpp lines 126-129, UnrefLogUnit.cpp lines
110-113). -/
noncomputable def U.compare (this other : U) : Except String Int := do
  let c ← U.compareTo other this
  return -c
termination_by 4 * (sizeOf this + sizeOf other) + 4
decreasing_by all_goals (simp_wf; (try simp [U.kindRank]); omega)

/-- The `compareTo` overload matrix.  Sources per arm: CanonicalUnit.cpp
lines 108-146 (canonical receiver; every other kind sorts after it),
AffineUnit.cpp lines 141-168 (affine receiver: canonical before, RefLog
after, affine by core then slope then intercept; the
`compareTo(UnrefLogUnit)` overload is not defined in the source),
RefLogUnit.cpp lines 131-156 (note line 143: the receiver compares its
*reference level* against the whole other unit, not against the other's
reference level), UnrefLogUnit.cpp lines 115-137. -/
noncomputable def U.compareTo (this arg : U) : Except String Int :=
  match this, arg with
  | .canonical f, .canonical f' => .ok (UFactors.compareLex f f')
  | .canonical _, .affine _ _ _ => .ok (-1)
  | .canonical _, .reflog _ _ => .ok (-1)
  | .canonical _, .unreflog _ _ => .ok (-1)
  | .affine _ _ _, .canonical _ => .ok 1
  | .affine core k b, .affine core' k' b' => do
    let cmp ← U.compare core core'
    if cmp ≠ 0 then return cmp
    else
      let cmp2 := dblCmp k k'
      if cmp2 ≠ 0 then return cmp2
      else return dblCmp b b'
  | .affine _ _ _, .reflog _ _ => .ok (-1)
  | .affine _ _ _, .unreflog _ _ =>
    .error "AffineUnit::compareTo(UnrefLogUnit) is not defined in the source"
  | .reflog _ _, .canonical _ => .ok 1
  | .reflog _ _, .affine _ _ _ => .ok 1
  | .reflog ref lb, .reflog ref' lb' => do
    let cmp ← U.compareTo ref (.reflog ref' lb')   -- refLevel->compareTo(other)
    if cmp = 0 then return dblCmp lb.logVal lb'.logVal
    else return cmp
  | .reflog _ _, .unreflog _ _ => .ok (-1)
  | .unreflog _ _, .canonical _ => .ok 1
  | .unreflog _ _, .affine _ _ _ => .ok 1
  | .unreflog _ _, .reflog _ _ => .ok 1
  | .unreflog lb d, .unreflog lb' d' =>
    .ok (if lb.logVal < lb'.logVal then -1
         else if lb'.logVal < lb.logVal then 1
         else DimsVal.compareLex d d')
termination_by 4 * (sizeOf this + sizeOf arg) + (3 - this.kindRank)
decreasing_by all_goals (simp_wf; (try simp [U.kindRank]); omega)

end

/-! ## Converters (src/src/Converter.h and the per-kind converter classes)

A `Converter` wraps a unary numeric function built by nesting function
objects; the embedding keeps the nesting structure as data and evaluates it
separately. -/

/-- The converter compositions the engine can build: `TrivialConverter`
(CanonicalUnit.cpp lines 34-46), `AffineUnit::ToConverter`/`FromConverter`
(AffineUnit.cpp lines 32-75), `RefLogUnit::ToConverter`/`FromConverter`
(RefLogUnit.cpp lines 42-80) and `UnrefLogUnit::FromConverter`
(UnrefLogUnit.cpp lines 43-60). -/
inductive Conv where
  | trivialC : Conv
  | affineTo : Conv → ℝ → ℝ → Conv
  | affineFrom : Conv → ℝ → ℝ → Conv
  | reflogTo : Conv → LogBase → Conv
  | reflogFrom : Conv → LogBase → Conv
  | unreflogFrom : LogBase → LogBase → Conv

/-- The C++ `Converter::operator()`: evaluation of each composition.
`TrivialConverter` returns the value; `AffineUnit::ToConverter` computes
`coreConverter((value - intercept)/slope)` (AffineUnit.cpp line 50);
`AffineUnit::FromConverter` computes `slope*coreConverter(value) + intercept`
(line 73); `RefLogUnit::ToConverter` computes `refConverter(exp(value*logBase))`
(RefLogUnit.cpp line 58); `RefLogUnit::FromConverter` computes
`log(refConverter(value))/logBase` (line 78); `UnrefLogUnit::FromConverter`
computes `value*(inputLogBase/outputLogBase)` (UnrefLogUnit.cpp line 58). -/
noncomputable def Conv.eval : Conv → ℝ → ℝ
  | .trivialC, x => x
  | .affineTo c slope intercept, x => c.eval ((x - intercept) / slope)
  | .affineFrom c slope intercept, x => slope * c.eval x + intercept
  | .reflogTo c lb, x => c.eval (Real.exp (x * lb.logVal))
  | .reflogFrom c lb, x => Real.log (c.eval x) / lb.logVal
  | .unreflogFrom lbIn lbOut, x => x * (lbIn.logVal / lbOut.logVal)

/-- Where a converter is defined as a C++ `double` computation: `log` is only
defined (finite) on positive arguments, every other step is total. -/
noncomputable def Conv.dom : Conv → ℝ → Prop
  | .trivialC, _ => True
  | .affineTo c slope intercept, x => c.dom ((x - intercept) / slope)
  | .affineFrom c _ _, x => c.dom x
  | .reflogTo c lb, x => c.dom (Real.exp (x * lb.logVal))
  | .reflogFrom c _, x => c.dom x ∧ 0 < c.eval x
  | .unreflogFrom _ _, _ => True

mutual

/-- The C++ `Unit::getConverterTo` per kind: canonical (CanonicalUnit.cpp lines
184-187) and unreferenced-log (UnrefLogUnit.cpp lines 164-167) units call
`output->getConverterFrom(*this)`; an affine unit first checks
`isConvertible(output)` and wraps its core's converter in a `ToConverter`
(AffineUnit.cpp lines 190-196); a referenced logarithmic unit wraps its
reference level's converter in a `ToConverter` without any check
(RefLogUnit.cpp lines 184-187). -/
noncomputable def U.getConverterTo (this output : U) : Except String Conv :=
  match this with
  | .canonical f => U.getConverterFrom output (.canonical f)
  | .affine core k b => do
    let ok ← U.isConvertible (.affine core k b) output
    if ok then
      let c ← U.getConverterTo core output
      return Conv.affineTo c k b
    else
      .error "Units are not convertible"
  | .reflog ref lb => do
    let c ← U.getConverterTo ref output
    return Conv.reflogTo c lb
  | .unreflog lb d => U.getConverterFrom output (.unreflog lb d)
termination_by 4 * (sizeOf this + sizeOf output) + 4
decreasing_by all_goals (simp_wf; (try simp [U.kindRank]); omega)

/-- The `getConverterFrom` overload matrix.  Sources per arm:
CanonicalUnit.cpp lines 189-212 (canonical receiver: `TrivialConverter` after
a convertibility check for canonical input, "shouldn't be called" logic
errors for the rest), AffineUnit.cpp lines 198-220 (affine receiver: check,
then `FromConverter` around the core's converter; the
`getConverterFrom(UnrefLogUnit)` overload is not defined in the source),
RefLogUnit.cpp lines 189-216 (referenced-log receiver: check, then
`FromConverter` around `input.getConverterTo(refLevel)`; unreferenced-log
input is rejected), UnrefLogUnit.cpp lines 169-187 (unreferenced-log
receiver: only unreferenced-log input is accepted). -/
noncomputable def U.getConverterFrom (this input : U) : Except String Conv :=
  match this, input with
  | .canonical f, .canonical f' =>
    if UFactors.equalFactors f f' then .ok Conv.trivialC
    else .error "Units are not convertible"
  | .canonical _, .affine _ _ _ =>
    .error "CanonicalUnit::getConverterFrom(AffineUnit) shouldn't be called"
  | .canonical _, .reflog _ _ =>
    .error "CanonicalUnit::getConverterFrom(RefLogUnit) shouldn't be called"
  | .canonical _, .unreflog _ _ =>
    .error "CanonicalUnit::getConverterFrom(UnrefLogUnit) shouldn't be called"
  | .affine core k b, .canonical f' => do
    let ok ← U.isConvertibleTo (.affine core k b) (.canonical f')
    if ok then
      let c ← U.getConverterFrom core (.canonical f')
      return Conv.affineFrom c k b
    else
      .error "Units are not convertible"
  | .affine core k b, .affine core' k' b' => do
    let ok ← U.isConvertibleTo (.affine core k b) (.affine core' k' b')
    if ok then
      let c ← U.getConverterFrom core (.affine core' k' b')
      return Conv.affineFrom c k b
    else
      .error "Units are not convertible"
  | .affine core k b, .reflog ref' lb' => do
    let ok ← U.isConvertibleTo (.affine core k b) (.reflog ref' lb')
    if ok then
      let c ← U.getConverterFrom core (.reflog ref' lb')
      return Conv.affineFrom c k b
    else
      .error "Units are not convertible"
  | .affine _ _ _, .unreflog _ _ =>
    .error "AffineUnit::getConverterFrom(UnrefLogUnit) is not defined in the source"
  | .reflog ref lb, .canonical f' => do
    let ok ← U.isConvertibleTo (.canonical f') (.reflog ref lb)
    if ok then
      let c ← U.getConverterTo (.canonical f') ref
      return Conv.reflogFrom c lb
    else
      .error "Units are not convertible"
  | .reflog ref lb, .affine core' k' b' => do
    let ok ← U.isConvertibleTo (.affine core' k' b') (.reflog ref lb)
    if ok then
      let c ← U.getConverterTo (.affine core' k' b') ref
      return Conv.reflogFrom c lb
    else
      .error "Units are not convertible"
  | .reflog ref lb, .reflog ref' lb' => do
    let ok ← U.isConvertibleTo (.reflog ref' lb') (.reflog ref lb)
    if ok then
      let c ← U.getConverterTo (.reflog ref' lb') ref
      return Conv.reflogFrom c lb
    else
      .error "Units are not convertible"
  | .reflog _ _, .unreflog _ _ => .error "Units are not convertible"
  | .unreflog _ _, .canonical _ => .error "Units are not convertible"
  | .unreflog _ _, .affine _ _ _ => .error "Units are not convertible"
  | .unreflog _ _, .reflog _ _ => .error "Units are not convertible"
  | .unreflog lbOut _, .unreflog lbIn _ => .ok (Conv.unreflogFrom lbIn lbOut)
termination_by 4 * (sizeOf this + sizeOf input) + (3 - this.kindRank)
decreasing_by all_goals (simp_wf; (try simp [U.kindRank]); omega)

end

/-! ## Multiplication and exponentiation -/

open Classical in
/-- The direct `AffineUnit` constructor (AffineUnit.cpp lines 77-89): rejects
a zero slope and the degenerate pair slope = 1, intercept = 0. -/
noncomputable def affineConstruct (core : U) (slope intercept : ℝ) : Except String U :=
  if slope = 0 then .error "Slope is zero"
  else if slope = 1 ∧ intercept = 0 then .error "Slope is one and intercept is zero"
  else .ok (U.affine core slope intercept)

open Classical in
/-- The affine factory `Unit::get(core, slope, intercept)` (src/src/Unit.cpp
lines 51-58): returns the core itself when slope = 1 and intercept = 0,
otherwise constructs an `AffineUnit`. -/
noncomputable def unitGet (core : U) (slope intercept : ℝ) : Except String U :=
  if slope = 1 ∧ intercept = 0 then .ok core
  else affineConstruct core slope intercept

/-- Modelled from the spec: `Exponent::exponentiate` is invoked by
`AffineUnit::pow` (AffineUnit.cpp line 248) but its definition is nowhere
under src/; it raises a double to this rational exponent, the reading pinned
by the repository's own exponentiation test (AffineUnit_test.cpp lines
151-162: a slope of 0.001 squared becomes 0.000001). -/
noncomputable def ExponentImpl.exponentiate (e : ExponentImpl) (x : ℝ) : ℝ :=
  x ^ ((e.numer : ℝ) / (e.denom : ℝ))

section

open Classical

mutual

/-- The C++ `Unit::multiply` per kind: canonical (CanonicalUnit.cpp lines 214-217)
and affine (AffineUnit.cpp lines 222-225) units call
`other->multiplyBy(*this)`; both logarithmic kinds throw
(LogUnit.cpp lines 40-43). -/
noncomputable def U.multiply (this other : U) : Except String U :=
  match this with
  | .canonical f => U.multiplyBy other (.canonical f)
  | .affine core k b => U.multiplyBy other (.affine core k b)
  | .reflog _ _ => .error "Multiplication of a logarithmic unit is not supported"
  | .unreflog _ _ => .error "Multiplication of a logarithmic unit is not supported"
termination_by 4 * (sizeOf this + sizeOf other) + 4
decreasing_by all_goals (simp_wf; (try simp [U.kindRank]); omega)

/-- The `multiplyBy` overload matrix (the `Unit` interface only declares
overloads for canonical and affine arguments, Unit.h lines 278-286; the
logarithmic-argument rows below are therefore unreachable from `multiply`).
Sources per arm: CanonicalUnit.cpp lines 219-252 (canonical receiver: factor
merge; affine argument deferred to the affine unit), AffineUnit.cpp lines
227-241 (affine receiver: reject offset operands, multiply the cores and the
slopes, re-wrap through the factory with intercept 0), LogUnit.cpp lines
45-53 (both logarithmic kinds throw). -/
noncomputable def U.multiplyBy (this arg : U) : Except String U :=
  match this, arg with
  | .canonical f, .canonical f' => .ok (.canonical (canonicalMerge f f'))
  | .canonical f, .affine core' k' b' => U.multiplyBy (.affine core' k' b') (.canonical f)
  | .affine core k b, .canonical f' =>
    if b ≠ 0 then .error "Multiplication by an offset unit isn't supported"
    else do
      let w ← U.multiplyBy core (.canonical f')
      unitGet w k 0
  | .affine core k b, .affine core' k' b' =>
    if b ≠ 0 ∨ b' ≠ 0 then .error "Multiplication by an offset unit isn't supported"
    else do
      let w ← U.multiply core core'
      unitGet w (k * k') 0
  | .reflog _ _, _ => .error "Multiplication of a logarithmic unit is not supported"
  | .unreflog _ _, _ => .error "Multiplication of a logarithmic unit is not supported"
  | .canonical _, .reflog _ _ => .error "no multiplyBy(RefLogUnit) overload in the Unit interface"
  | .canonical _, .unreflog _ _ => .error "no multiplyBy(UnrefLogUnit) overload in the Unit interface"
  | .affine _ _ _, .reflog _ _ => .error "no multiplyBy(RefLogUnit) overload in the Unit interface"
  | .affine _ _ _, .unreflog _ _ => .error "no multiplyBy(UnrefLogUnit) overload in the Unit interface"
termination_by 4 * (sizeOf this + sizeOf arg) + (3 - this.kindRank)
decreasing_by all_goals (simp_wf; (try simp [U.kindRank]); omega)

end

/-- The C++ `Unit::pow` per kind: a canonical unit multiplies every factor's exponent
(CanonicalUnit.cpp lines 254-265), an affine unit rejects a non-zero
intercept and re-wraps its core's power with the exponentiated slope
(AffineUnit.cpp lines 243-249), both logarithmic kinds throw (LogUnit.cpp
lines 55-58). -/
noncomputable def U.pow (this : U) (e : ExponentImpl) : Except String U :=
  match this with
  | .canonical f => .ok (.canonical (canonicalPow f e))
  | .affine core k b =>
    if b ≠ 0 then .error "Exponentiating an offset unit isn't supported"
    else do
      let c ← U.pow core e
      unitGet c (e.exponentiate k) 0
  | .reflog _ _ => .error "Exponentiation of a logarithmic unit is not supported"
  | .unreflog _ _ => .error "Exponentiation of a logarithmic unit is not supported"

end

/-! ## Value denotations of the unit chains

Helper functions for the round-trip proof: the value a unit's down-chain
(affine and logarithmic wrappers unwound toward its root) assigns to a
number, and the value the inverse chain rebuilds.  Both are read off the
converter steps above. -/

/-- Unwind a value through a unit's wrappers toward its root: the affine step
is `(x - intercept)/slope` (`ToConverter`), the referenced-log step is
`exp(x*logBase)`, the unreferenced-log step multiplies by the natural log of
the base. -/
noncomputable def U.phiVal : U → ℝ → ℝ
  | .canonical _, x => x
  | .affine core k b, x => core.phiVal ((x - b) / k)
  | .reflog ref lb, x => ref.phiVal (Real.exp (x * lb.logVal))
  | .unreflog lb _, x => x * lb.logVal

/-- Rebuild a value through a unit's wrappers from its root: the affine step
is `slope*x + intercept` (`FromConverter`), the referenced-log step is
`log(x)/logBase`, the unreferenced-log step divides by the natural log of the
base. -/
noncomputable def U.psiVal : U → ℝ → ℝ
  | .canonical _, z => z
  | .affine core k b, z => k * core.psiVal z + b
  | .reflog ref lb, z => Real.log (ref.psiVal z) / lb.logVal
  | .unreflog lb _, z => z / lb.logVal

/-- Positivity of the intermediate values a unit's rebuild chain feeds to
`log`: the condition under which the C++ `FromConverter` chain of the unit is
defined on a root-scale value. -/
noncomputable def U.psiPos : U → ℝ → Prop
  | .canonical _, _ => True
  | .affine core _ _, z => core.psiPos z
  | .reflog ref _, z => 0 < ref.psiVal z ∧ ref.psiPos z
  | .unreflog _ _, _ => True

/-- The constructor invariants of the units along a chain: every affine slope
is non-zero (enforced by `AffineUnit`'s constructor, AffineUnit.cpp lines
85-86). -/
def U.wf : U → Prop
  | .canonical _ => True
  | .affine core k _ => k ≠ 0 ∧ core.wf
  | .reflog ref _ => ref.wf
  | .unreflog _ _ => True

/-! ## Concrete units used by the scenario theorems -/

/-- Base-unit information for the meter (name, symbol). -/
def meterInfo : BaseInfoE := ⟨"meter", "m"⟩

/-- Base-unit information for the second. -/
def secondInfo : BaseInfoE := ⟨"second", "s"⟩

/-- Base-unit information for the kelvin (ASCII symbol; the symbol text is
irrelevant to every property proved below). -/
def kelvinInfo : BaseInfoE := ⟨"kelvin", "K"⟩

/-- The factor set of the meter as a canonical unit. -/
def meterF : UFactors := [(meterInfo, ⟨1, 1⟩)]

/-- The factor set of the second as a canonical unit. -/
def secondF : UFactors := [(secondInfo, ⟨1, 1⟩)]

/-- The factor set of the kelvin as a canonical unit. -/
def kelvinF : UFactors := [(kelvinInfo, ⟨1, 1⟩)]

/-- The meter, `Unit::get(BaseInfo)` (Unit.cpp lines 34-38). -/
def meterU : U := U.canonical meterF

/-- The second as a canonical unit. -/
def secondU : U := U.canonical secondF

/-- The kelvin as a canonical unit. -/
def kelvinU : U := U.canonical kelvinF

/-! ## Theorems -/

/-- Claim C10: every logarithmic unit, referenced or unreferenced, answers
`isDimensionless()` with true and `isOffset()` with false, whatever its
reference level or bound dimensionality. -/
theorem log_units_dimensionless_not_offset (ref : U) (lb lb' : LogBase) (d : DimsVal) :
    (U.reflog ref lb).isDimensionless = true ∧ (U.reflog ref lb).isOffset = false ∧
    (U.unreflog lb' d).isDimensionless = true ∧ (U.unreflog lb' d).isOffset = false :=
  ⟨rfl, rfl, rfl, rfl⟩

/-- Claim C8 (failing input): constructing `Dimension("N", "S")` against
registries in which the name "N" is fresh but the symbol "S" is taken fails,
yet leaves the name "N" registered: the registries are not restored, contrary
to the fail-with-no-state-registered contract. -/
theorem dimension_construct_partial_registration :
    (dimensionConstruct ⟨[], ["S"]⟩ "N" "S").1 = .error "Dimension symbol is already in use" ∧
    (dimensionConstruct ⟨[], ["S"]⟩ "N" "S").2 = ⟨["N"], ["S"]⟩ ∧
    (⟨["N"], ["S"]⟩ : DimRegistry) ≠ ⟨[], ["S"]⟩ := by
  refine ⟨?_, ?_, by decide⟩ <;> rfl

/-- Claim C5 (failing input): the `Exponent` cells of a `Dimensionality` are
shared through the `Impl` copy that `multiply` and `pow` start from, and
`Exponent::add`/`multiply` mutate them in place, so
`d1.multiply(d2)` and `d1.pow(2)` change the observable value of the larger
operand `d1` from Length¹ to Length².  (The repository's own
Dimensionality test expects `length` to still render as `L` after
`length.multiply(length)`, which this mutation breaks.) -/
theorem dimensionality_multiply_mutates_operand :
    DimFactors.valueIn [(⟨"Length", "L"⟩, 0)]
        (dimensionalityMultiply [(⟨"Length", "L"⟩, 0)] [(⟨"Length", "L"⟩, 1)]
          ⟨[⟨1, 1⟩, ⟨1, 1⟩]⟩).2
      = [(⟨"Length", "L"⟩, ⟨2, 1⟩)] ∧
    DimFactors.valueIn [(⟨"Length", "L"⟩, 0)] ⟨[⟨1, 1⟩, ⟨1, 1⟩]⟩
      = [(⟨"Length", "L"⟩, ⟨1, 1⟩)] ∧
    DimFactors.valueIn [(⟨"Length", "L"⟩, 0)]
        (dimensionalityPow [(⟨"Length", "L"⟩, 0)] ⟨2, 1⟩ ⟨[⟨1, 1⟩, ⟨1, 1⟩]⟩).2
      = [(⟨"Length", "L"⟩, ⟨2, 1⟩)] ∧
    (⟨2, 1⟩ : ExponentImpl) ≠ ⟨1, 1⟩ := by
  refine ⟨?_, ?_, ?_, by decide⟩ <;> rfl

/-- Claim C4 (failing input): `CanonicalUnit::pow` with exponent zero keeps
every factor with exponent 0/1, so `meter.pow(0)` is not dimensionless; and
`Dimensionality::Impl::multiply` keeps a cancelled factor as Length⁰ instead
of dropping it. -/
theorem pow_zero_keeps_zero_exponents :
    U.pow meterU ⟨0, 1⟩ = .ok (U.canonical [(meterInfo, ⟨0, 1⟩)]) ∧
    (U.canonical [(meterInfo, ⟨0, 1⟩)]).isDimensionless = false ∧
    DimFactors.valueIn
        (dimensionalityMultiply [(⟨"Length", "L"⟩, 0)] [(⟨"Length", "L"⟩, 1)]
          ⟨[⟨1, 1⟩, ⟨-1, 1⟩]⟩).1
        (dimensionalityMultiply [(⟨"Length", "L"⟩, 0)] [(⟨"Length", "L"⟩, 1)]
          ⟨[⟨1, 1⟩, ⟨-1, 1⟩]⟩).2
      = [(⟨"Length", "L"⟩, ⟨0, 1⟩)] := by
  refine ⟨?_, ?_, ?_⟩ <;> rfl

/-- Cross-multiplication form of comparing two fractions with positive
denominators. -/
theorem ratCross_lt (n1 d1 n2 d2 : Int) (h1 : 0 < d1) (h2 : 0 < d2) :
    ((n1 : ℚ) / d1 < (n2 : ℚ) / d2) ↔ n1 * d2 < n2 * d1 := by
  rw [div_lt_div_iff₀ (by exact_mod_cast h1) (by exact_mod_cast h2)]
  exact_mod_cast Iff.rfl

/-- Cross-multiplication form of fraction equality with positive
denominators. -/
theorem ratCross_eq (n1 d1 n2 d2 : Int) (h1 : 0 < d1) (h2 : 0 < d2) :
    ((n1 : ℚ) / d1 = (n2 : ℚ) / d2) ↔ n1 * d2 = n2 * d1 := by
  rw [div_eq_div_iff (show ((d1 : ℚ)) ≠ 0 by exact_mod_cast h1.ne')
    (show ((d2 : ℚ)) ≠ 0 by exact_mod_cast h2.ne')]
  exact_mod_cast Iff.rfl

/-- The C++ sign helper is non-negative on non-negative inputs. -/
theorem signI_nonneg {i : Int} (h : 0 ≤ i) : 0 ≤ signI i := by
  unfold signI
  split <;> split <;> omega

/-- The C++ sign helper returns -1 on negative inputs. -/
theorem signI_neg {i : Int} (h : i < 0) : signI i = -1 := by
  unfold signI
  rw [if_neg (by omega), if_pos h]
  omega

/-- Claim C7 (counterexample): on the negative exponents -3 and -1,
`compare` returns 1 although -3 < -1 as rationals, so `compare` is not the
rational value order. -/
theorem exponent_compare_not_value_order :
    ¬ ((ExponentImpl.compare ⟨-3, 1⟩ ⟨-1, 1⟩ < 0) ↔
        (ExponentImpl.ratVal ⟨-3, 1⟩ < ExponentImpl.ratVal ⟨-1, 1⟩)) := by
  have h1 : ExponentImpl.compare ⟨-3, 1⟩ ⟨-1, 1⟩ = 1 := by decide
  have h2 : ExponentImpl.ratVal ⟨-3, 1⟩ < ExponentImpl.ratVal ⟨-1, 1⟩ := by
    norm_num [ExponentImpl.ratVal]
  intro h
  rw [h1] at h
  exact absurd (h.mpr h2) (by norm_num)

/-- Claim C7 (amended): `compare` is the rational value order only on
non-negative exponents; any exponent with a negative numerator sorts after
every non-negative one, and two negative exponents are ordered by ascending
absolute value. -/
theorem exponent_compare_characterization (a b : ExponentImpl)
    (ha : 0 < a.denom) (hb : 0 < b.denom) :
    (0 ≤ a.numer → 0 ≤ b.numer →
      ((a.compare b < 0 ↔ a.ratVal < b.ratVal) ∧ (a.compare b = 0 ↔ a.ratVal = b.ratVal))) ∧
    (a.numer < 0 → b.numer < 0 →
      ((a.compare b < 0 ↔ |a.ratVal| < |b.ratVal|) ∧
        (a.compare b = 0 ↔ |a.ratVal| = |b.ratVal|))) ∧
    (0 ≤ a.numer → b.numer < 0 → a.compare b = -1) ∧
    (a.numer < 0 → 0 ≤ b.numer → a.compare b = 1) := by
  obtain ⟨an, ad⟩ := a
  obtain ⟨bn, bd⟩ := b
  simp only [ExponentImpl.ratVal] at *
  refine ⟨?_, ?_, ?_, ?_⟩
  · intro han hbn
    have h1 : |an * bd| = an * bd := abs_of_nonneg (by positivity)
    have h2 : |bn * ad| = bn * ad := abs_of_nonneg (by positivity)
    simp only [ExponentImpl.compare, h1, h2]
    rw [if_pos (Or.inr ⟨signI_nonneg han, signI_nonneg hbn⟩)]
    rw [ratCross_lt an ad bn bd ha hb, ratCross_eq an ad bn bd ha hb]
    constructor
    · constructor
      · intro h
        split at h
        · assumption
        · split at h <;> omega
      · intro h
        rw [if_pos h]
        omega
    · constructor
      · intro h
        split at h
        · omega
        · split at h
          · assumption
          · omega
      · intro h
        rw [if_neg (by omega), if_pos h]
  · intro han hbn
    have h1 : |an * bd| = -an * bd := by
      rw [abs_of_nonpos (by nlinarith)]
      ring
    have h2 : |bn * ad| = -bn * ad := by
      rw [abs_of_nonpos (by nlinarith)]
      ring
    have habs1 : |(an : ℚ) / ad| = ((-an : Int) : ℚ) / ((ad : Int) : ℚ) := by
      rw [abs_div, abs_of_neg (show ((an : ℚ)) < 0 by exact_mod_cast han),
        abs_of_pos (show (0 : ℚ) < ((ad : Int) : ℚ) by exact_mod_cast ha)]
      push_cast
      ring
    have habs2 : |(bn : ℚ) / bd| = ((-bn : Int) : ℚ) / ((bd : Int) : ℚ) := by
      rw [abs_div, abs_of_neg (show ((bn : ℚ)) < 0 by exact_mod_cast hbn),
        abs_of_pos (show (0 : ℚ) < ((bd : Int) : ℚ) by exact_mod_cast hb)]
      push_cast
      ring
    simp only [ExponentImpl.compare, h1, h2, habs1, habs2]
    rw [if_pos (Or.inl (by rw [signI_neg han, signI_neg hbn]))]
    rw [ratCross_lt (-an) ad (-bn) bd ha hb, ratCross_eq (-an) ad (-bn) bd ha hb]
    constructor
    · constructor
      · intro h
        split at h
        · assumption
        · split at h <;> omega
      · intro h
        rw [if_pos h]
        omega
    · constructor
      · intro h
        split at h
        · omega
        · split at h
          · assumption
          · omega
      · intro h
        rw [if_neg (by omega), if_pos h]
  · intro han hbn
    have hs1 := signI_nonneg han
    have hs2 := signI_neg hbn
    simp only [ExponentImpl.compare]
    rw [if_neg (by rintro (h | ⟨_, h2⟩) <;> omega)]
    rw [if_neg (by omega), if_pos (by omega)]
  · intro han hbn
    have hs1 := signI_neg han
    have hs2 := signI_nonneg hbn
    simp only [ExponentImpl.compare]
    rw [if_neg (by rintro (h | ⟨h1, _⟩) <;> omega)]
    rw [if_pos (by omega)]

/-- Witness for the C7 characterization at concrete exponents 1/2 and 2/3. -/
theorem exponent_compare_characterization_witness :
    (0 ≤ (1 : Int) → 0 ≤ (2 : Int) →
      ((ExponentImpl.compare ⟨1, 2⟩ ⟨2, 3⟩ < 0 ↔
          ExponentImpl.ratVal ⟨1, 2⟩ < ExponentImpl.ratVal ⟨2, 3⟩) ∧
        (ExponentImpl.compare ⟨1, 2⟩ ⟨2, 3⟩ = 0 ↔
          ExponentImpl.ratVal ⟨1, 2⟩ = ExponentImpl.ratVal ⟨2, 3⟩))) ∧
    ((1 : Int) < 0 → (2 : Int) < 0 →
      ((ExponentImpl.compare ⟨1, 2⟩ ⟨2, 3⟩ < 0 ↔
          |ExponentImpl.ratVal ⟨1, 2⟩| < |ExponentImpl.ratVal ⟨2, 3⟩|) ∧
        (ExponentImpl.compare ⟨1, 2⟩ ⟨2, 3⟩ = 0 ↔
          |ExponentImpl.ratVal ⟨1, 2⟩| = |ExponentImpl.ratVal ⟨2, 3⟩|))) ∧
    (0 ≤ (1 : Int) → (2 : Int) < 0 → ExponentImpl.compare ⟨1, 2⟩ ⟨2, 3⟩ = -1) ∧
    ((1 : Int) < 0 → 0 ≤ (2 : Int) → ExponentImpl.compare ⟨1, 2⟩ ⟨2, 3⟩ = 1) :=
  exponent_compare_characterization ⟨1, 2⟩ ⟨2, 3⟩ (by decide) (by decide)


/-- Claim C3 (failing input): `RefLogUnit::compareTo(const RefLogUnit&)`
compares its reference level against the *whole* other unit, so a referenced
logarithmic unit over a canonical reference never compares equal to itself:
`compare(lb(re m), lb(re m)) = 1`, and two distinct referenced logarithmic
units both report 1 against each other, breaking antisymmetry (and leaving
the logarithmic-base tie-break unreachable). -/
theorem reflog_compare_breaks_total_order :
    U.compare (U.reflog meterU .two) (U.reflog meterU .two) = .ok 1 ∧
    U.compare (U.reflog meterU .two) (U.reflog meterU .ten) = .ok 1 ∧
    U.compare (U.reflog meterU .ten) (U.reflog meterU .two) = .ok 1 := by
  refine ⟨?_, ?_, ?_⟩ <;>
    simp [U.compare, U.compareTo, meterU, bind, Except.bind, Functor.map, Except.map,
      pure, Except.pure]

/-- Comparison of a character list with itself yields zero. -/
theorem compareChars_self (l : List Char) : compareChars l l = 0 := by
  induction l with
  | nil => rfl
  | cons c r ih => simp [compareChars, ih]

/-- Comparison of a string with itself yields zero. -/
theorem strCmp_self (s : String) : strCmp s s = 0 :=
  compareChars_self _

/-- Comparing base-unit information with itself yields zero. -/
theorem baseInfoCompare_self (a : BaseInfoE) : a.compare a = 0 :=
  strCmp_self _

/-- Comparing an exponent with itself yields zero. -/
theorem expCompare_self (e : ExponentImpl) : e.compare e = 0 := by
  simp [ExponentImpl.compare]

/-- A factor set is always convertible to itself
(`CanonicalUnit::isConvertibleTo` accepts identical factor sets). -/
theorem equalFactors_refl (f : UFactors) : UFactors.equalFactors f f = true := by
  induction f with
  | nil => rfl
  | cons a r ih => simp [UFactors.equalFactors, baseInfoCompare_self, expCompare_self, ih]

/-- Character-list comparison vanishes symmetrically: the two orders agree on
whether the lists are equal. -/
theorem compareChars_zero_symm :
    ∀ l1 l2 : List Char, (compareChars l1 l2 = 0) ↔ (compareChars l2 l1 = 0) := by
  intro l1
  induction l1 with
  | nil => intro l2; cases l2 <;> simp [compareChars]
  | cons c1 r1 ih =>
    intro l2
    cases l2 with
    | nil => simp [compareChars]
    | cons c2 r2 =>
      simp only [compareChars]
      split_ifs <;> first | exact ih r2 | omega | simp

/-- Base-unit comparison vanishes symmetrically. -/
theorem baseInfoCompare_zero_symm (a b : BaseInfoE) :
    (BaseInfoE.compare a b = 0) ↔ (BaseInfoE.compare b a = 0) :=
  compareChars_zero_symm _ _

/-- Exponent comparison vanishes symmetrically: both branch conditions of
`ExponentImpl::compare` are symmetric in the operands, and the magnitude test
compares the same two cross products in either order. -/
theorem expCompare_zero_symm (a b : ExponentImpl) :
    (ExponentImpl.compare a b = 0) ↔ (ExponentImpl.compare b a = 0) := by
  simp only [ExponentImpl.compare]
  split_ifs <;> first | omega | simp

/-- Factor-set equality as tested by `CanonicalUnit::isConvertibleTo` is
symmetric. -/
theorem equalFactors_symm :
    ∀ f c : UFactors, UFactors.equalFactors f c = UFactors.equalFactors c f := by
  intro f
  induction f with
  | nil => intro c; cases c <;> rfl
  | cons x r ih =>
    intro c
    cases c with
    | nil => rfl
    | cons y r2 =>
      simp only [UFactors.equalFactors]
      rw [ih r2,
        show decide (x.1.compare y.1 = 0) = decide (y.1.compare x.1 = 0) from
          decide_eq_decide.mpr (baseInfoCompare_zero_symm x.1 y.1),
        show decide (x.2.compare y.2 = 0) = decide (y.2.compare x.2 = 0) from
          decide_eq_decide.mpr (expCompare_zero_symm x.2 y.2)]

/-- The converter from an affine unit over a canonical core to that core:
`ToConverter` around the trivial converter. -/
theorem getConvTo_affine_to_core (f : UFactors) (k b : ℝ) :
    U.getConverterTo (U.affine (U.canonical f) k b) (U.canonical f) =
      .ok (Conv.affineTo Conv.trivialC k b) := by
  simp [U.getConverterTo, U.getConverterFrom, U.isConvertible, U.isConvertibleTo,
    equalFactors_refl, bind, Except.bind, pure, Except.pure]

/-- The converter from a canonical core to an affine unit over it:
`FromConverter` around the trivial converter. -/
theorem getConvTo_core_to_affine (f : UFactors) (k b : ℝ) :
    U.getConverterTo (U.canonical f) (U.affine (U.canonical f) k b) =
      .ok (Conv.affineFrom Conv.trivialC k b) := by
  simp [U.getConverterTo, U.getConverterFrom, U.isConvertible, U.isConvertibleTo,
    equalFactors_refl, bind, Except.bind, pure, Except.pure]

/-- Claim C1 (amended): for an affine unit over a canonical core, the
converter toward the core evaluates `(value - intercept)/slope` and the
core-to-affine converter evaluates `slope*value + intercept`. -/
theorem affine_converter_directions (f : UFactors) (k b : ℝ) (_hk : k ≠ 0)
    (_hdeg : ¬(k = 1 ∧ b = 0)) (x : ℝ) :
    U.getConverterTo (U.affine (U.canonical f) k b) (U.canonical f) =
      .ok (Conv.affineTo Conv.trivialC k b) ∧
    Conv.eval (Conv.affineTo Conv.trivialC k b) x = (x - b) / k ∧
    U.getConverterTo (U.canonical f) (U.affine (U.canonical f) k b) =
      .ok (Conv.affineFrom Conv.trivialC k b) ∧
    Conv.eval (Conv.affineFrom Conv.trivialC k b) x = k * x + b :=
  ⟨getConvTo_affine_to_core f k b, by simp [Conv.eval],
    getConvTo_core_to_affine f k b, by simp [Conv.eval]⟩

/-- Claim C1 (counterexample): with `celsius = Affine(kelvin, 1, -273.15)`,
`celsius.getConverterTo(kelvin).convert(0)` evaluates to 273.15 (the code's
to-core direction is `(value - intercept)/slope`), not -273.15. -/
theorem celsius_to_kelvin_converts_zero_to_positive :
    U.getConverterTo (U.affine kelvinU 1 (-273.15)) kelvinU =
      .ok (Conv.affineTo Conv.trivialC 1 (-273.15)) ∧
    Conv.eval (Conv.affineTo Conv.trivialC 1 (-273.15)) 0 = 273.15 ∧
    (273.15 : ℝ) ≠ -273.15 :=
  ⟨getConvTo_affine_to_core kelvinF 1 (-273.15), by norm_num [Conv.eval], by norm_num⟩

/-- Witness for the C1 direction theorem at the celsius/kelvin instance. -/
theorem affine_converter_directions_witness :
    U.getConverterTo (U.affine (U.canonical kelvinF) 1 (-273.15)) (U.canonical kelvinF) =
      .ok (Conv.affineTo Conv.trivialC 1 (-273.15)) ∧
    Conv.eval (Conv.affineTo Conv.trivialC 1 (-273.15)) 0 = (0 - (-273.15)) / 1 ∧
    U.getConverterTo (U.canonical kelvinF) (U.affine (U.canonical kelvinF) 1 (-273.15)) =
      .ok (Conv.affineFrom Conv.trivialC 1 (-273.15)) ∧
    Conv.eval (Conv.affineFrom Conv.trivialC 1 (-273.15)) 0 = 1 * 0 + (-273.15) :=
  affine_converter_directions kelvinF 1 (-273.15) one_ne_zero (by norm_num) 0

/-- Convertibility of a referenced logarithmic unit over a canonical
reference with a canonical unit: decided by the reference level's factor
set. -/
theorem reflog_isConvertible_canonical (c f : UFactors) (lb : LogBase) :
    U.isConvertible (U.reflog (U.canonical c) lb) (U.canonical f) =
      .ok (UFactors.equalFactors f c) := by
  simp [U.isConvertible, U.isConvertibleTo]

/-- Convertibility of a canonical unit with a referenced logarithmic unit
over a canonical reference. -/
theorem canonical_isConvertible_reflog (c f : UFactors) (lb : LogBase) :
    U.isConvertible (U.canonical f) (U.reflog (U.canonical c) lb) =
      .ok (UFactors.equalFactors c f) := by
  simp [U.isConvertible, U.isConvertibleTo]

/-- Convertibility of a referenced logarithmic unit with an affine unit over
a canonical core. -/
theorem reflog_isConvertible_affine (c f : UFactors) (lb : LogBase) (k b : ℝ) :
    U.isConvertible (U.reflog (U.canonical c) lb) (U.affine (U.canonical f) k b) =
      .ok (UFactors.equalFactors f c) := by
  simp [U.isConvertible, U.isConvertibleTo]

/-- Convertibility of an affine unit over a canonical core with a referenced
logarithmic unit, queried from the affine side: dispatch defers through
`RefLogUnit::isConvertibleTo(AffineUnit)` to the reference level and ends at
the two canonical factor sets. -/
theorem affine_isConvertible_reflog (c f : UFactors) (lb : LogBase) (k b : ℝ) :
    U.isConvertible (U.affine (U.canonical f) k b) (U.reflog (U.canonical c) lb) =
      .ok (UFactors.equalFactors f c) := by
  simp [U.isConvertible, U.isConvertibleTo]

/-- Converter from a referenced logarithmic unit over a canonical reference
to an affine unit over a canonical core: obtained whenever the factor sets
agree (`RefLogUnit::getConverterTo` wraps the reference level's converter,
which `AffineUnit::getConverterFrom` builds as a `FromConverter`). -/
theorem reflog_getConverterTo_affine (c f : UFactors) (lb : LogBase) (k b : ℝ) :
    U.getConverterTo (U.reflog (U.canonical c) lb) (U.affine (U.canonical f) k b) =
      (if UFactors.equalFactors f c then
          .ok (Conv.reflogTo (Conv.affineFrom Conv.trivialC k b) lb)
        else .error "Units are not convertible") := by
  cases h : UFactors.equalFactors f c <;>
    simp [U.getConverterTo, U.getConverterFrom, U.isConvertibleTo, h, bind, Except.bind,
      pure, Except.pure]

/-- Converter from an affine unit over a canonical core to a referenced
logarithmic unit: obtained whenever the factor sets agree
(`AffineUnit::getConverterTo` checks convertibility and wraps its core's
converter, which `RefLogUnit::getConverterFrom` builds as a
`FromConverter`). -/
theorem affine_getConverterTo_reflog (c f : UFactors) (lb : LogBase) (k b : ℝ) :
    U.getConverterTo (U.affine (U.canonical f) k b) (U.reflog (U.canonical c) lb) =
      (if UFactors.equalFactors f c then
          .ok (Conv.affineTo (Conv.reflogFrom Conv.trivialC lb) k b)
        else .error "Units are not convertible") := by
  have hsym := equalFactors_symm c f
  cases h : UFactors.equalFactors f c <;>
    rw [h] at hsym <;>
    simp [U.getConverterTo, U.getConverterFrom, U.isConvertible, U.isConvertibleTo, h, hsym,
      bind, Except.bind, pure, Except.pure]

/-- A referenced logarithmic unit over a canonical reference reports false
against an unreferenced logarithmic unit... -/
theorem reflog_isConvertible_unreflog (c : UFactors) (lb lb' : LogBase) (d' : DimsVal) :
    U.isConvertible (U.reflog (U.canonical c) lb) (U.unreflog lb' d') = .ok false := by
  simp [U.isConvertible, U.isConvertibleTo]

/-- ...while the unreferenced side throws (the deferred
`RefLogUnit::isConvertibleTo(UnrefLogUnit)` raises a logic error). -/
theorem unreflog_isConvertible_reflog (c : UFactors) (lb lb' : LogBase) (d' : DimsVal) :
    U.isConvertible (U.unreflog lb' d') (U.reflog (U.canonical c) lb) =
      .error "Conversion between referenced and unreferenced log units is not possible" := by
  rw [U.isConvertible, U.isConvertibleTo]

/-- Converter from a referenced logarithmic unit over a canonical reference
to a canonical unit: obtained whenever the factor sets agree. -/
theorem reflog_getConverterTo_canonical (c f : UFactors) (lb : LogBase) :
    U.getConverterTo (U.reflog (U.canonical c) lb) (U.canonical f) =
      (if UFactors.equalFactors f c then .ok (Conv.reflogTo Conv.trivialC lb)
        else .error "Units are not convertible") := by
  cases h : UFactors.equalFactors f c <;>
    simp [U.getConverterTo, U.getConverterFrom, h, bind, Except.bind, pure, Except.pure]

/-- Converter from a canonical unit to a referenced logarithmic unit over a
canonical reference: obtained whenever the factor sets agree. -/
theorem canonical_getConverterTo_reflog (c f : UFactors) (lb : LogBase) :
    U.getConverterTo (U.canonical f) (U.reflog (U.canonical c) lb) =
      (if UFactors.equalFactors c f then .ok (Conv.reflogFrom Conv.trivialC lb)
        else .error "Units are not convertible") := by
  cases h : UFactors.equalFactors c f <;>
    simp [U.getConverterTo, U.getConverterFrom, U.isConvertibleTo, h, bind, Except.bind,
      pure, Except.pure]

/-- Requesting a converter from a referenced to an unreferenced logarithmic
unit fails. -/
theorem reflog_getConverterTo_unreflog (c : UFactors) (lb lb' : LogBase) (d' : DimsVal) :
    U.getConverterTo (U.reflog (U.canonical c) lb) (U.unreflog lb' d') =
      .error "Units are not convertible" := by
  simp [U.getConverterTo, U.getConverterFrom, bind, Except.bind, pure, Except.pure]

/-- Requesting a converter from an unreferenced to a referenced logarithmic
unit fails. -/
theorem unreflog_getConverterTo_reflog (c : UFactors) (lb lb' : LogBase) (d' : DimsVal) :
    U.getConverterTo (U.unreflog lb' d') (U.reflog (U.canonical c) lb) =
      .error "Units are not convertible" := by
  simp [U.getConverterTo, U.getConverterFrom]

/-- Claim C6 (amended): a referenced logarithmic unit over a canonical
reference level is convertible exactly with the units its reference level is
convertible with — canonical and affine units whose factor set matches the
reference's, with the query answered the same from either side — and
converters toward and from both canonical and affine partners are then
obtainable in both directions; only against unreferenced logarithmic units
does convertibility fail (with an error on the unreferenced side's query)
and are converters refused in both directions. -/
theorem reflog_convertibility (c f : UFactors) (lb lb' : LogBase) (d' : DimsVal) (k b : ℝ) :
    U.isConvertible (U.reflog (U.canonical c) lb) (U.canonical f) =
      .ok (UFactors.equalFactors f c) ∧
    U.isConvertible (U.canonical f) (U.reflog (U.canonical c) lb) =
      .ok (UFactors.equalFactors c f) ∧
    U.isConvertible (U.reflog (U.canonical c) lb) (U.affine (U.canonical f) k b) =
      .ok (UFactors.equalFactors f c) ∧
    U.isConvertible (U.affine (U.canonical f) k b) (U.reflog (U.canonical c) lb) =
      .ok (UFactors.equalFactors f c) ∧
    U.getConverterTo (U.reflog (U.canonical c) lb) (U.canonical f) =
      (if UFactors.equalFactors f c then .ok (Conv.reflogTo Conv.trivialC lb)
        else .error "Units are not convertible") ∧
    U.getConverterTo (U.canonical f) (U.reflog (U.canonical c) lb) =
      (if UFactors.equalFactors c f then .ok (Conv.reflogFrom Conv.trivialC lb)
        else .error "Units are not convertible") ∧
    U.getConverterTo (U.reflog (U.canonical c) lb) (U.affine (U.canonical f) k b) =
      (if UFactors.equalFactors f c then
          .ok (Conv.reflogTo (Conv.affineFrom Conv.trivialC k b) lb)
        else .error "Units are not convertible") ∧
    U.getConverterTo (U.affine (U.canonical f) k b) (U.reflog (U.canonical c) lb) =
      (if UFactors.equalFactors f c then
          .ok (Conv.affineTo (Conv.reflogFrom Conv.trivialC lb) k b)
        else .error "Units are not convertible") ∧
    U.isConvertible (U.reflog (U.canonical c) lb) (U.unreflog lb' d') = .ok false ∧
    U.isConvertible (U.unreflog lb' d') (U.reflog (U.canonical c) lb) =
      .error "Conversion between referenced and unreferenced log units is not possible" ∧
    U.getConverterTo (U.reflog (U.canonical c) lb) (U.unreflog lb' d') =
      .error "Units are not convertible" ∧
    U.getConverterTo (U.unreflog lb' d') (U.reflog (U.canonical c) lb) =
      .error "Units are not convertible" :=
  ⟨reflog_isConvertible_canonical c f lb, canonical_isConvertible_reflog c f lb,
    reflog_isConvertible_affine c f lb k b, affine_isConvertible_reflog c f lb k b,
    reflog_getConverterTo_canonical c f lb, canonical_getConverterTo_reflog c f lb,
    reflog_getConverterTo_affine c f lb k b, affine_getConverterTo_reflog c f lb k b,
    reflog_isConvertible_unreflog c lb lb' d',
    unreflog_isConvertible_reflog c lb lb' d', reflog_getConverterTo_unreflog c lb lb' d',
    unreflog_getConverterTo_reflog c lb lb' d'⟩

/-- Claim C6 (counterexample): `lb(re meter)` and `meter` are mutually
convertible and converters between them are granted, contradicting the claim
that a referenced logarithmic unit is convertible only with another
referenced logarithmic unit. -/
theorem reflog_canonical_convertible_counterexample :
    U.isConvertible (U.reflog meterU .two) meterU = .ok true ∧
    U.isConvertible meterU (U.reflog meterU .two) = .ok true ∧
    U.getConverterTo (U.reflog meterU .two) meterU = .ok (Conv.reflogTo Conv.trivialC .two) ∧
    U.getConverterTo meterU (U.reflog meterU .two) =
      .ok (Conv.reflogFrom Conv.trivialC .two) := by
  have h := equalFactors_refl meterF
  refine ⟨?_, ?_, ?_, ?_⟩
  · rw [show (meterU : U) = U.canonical meterF from rfl, reflog_isConvertible_canonical, h]
  · rw [show (meterU : U) = U.canonical meterF from rfl, canonical_isConvertible_reflog, h]
  · rw [show (meterU : U) = U.canonical meterF from rfl, reflog_getConverterTo_canonical, h,
      if_pos rfl]
  · rw [show (meterU : U) = U.canonical meterF from rfl, canonical_getConverterTo_reflog, h,
      if_pos rfl]

/-- The factory `unitGet` wraps a core in an affine unit whenever the slope is neither
zero nor one (intercept zero). -/
theorem unitGet_wraps (w : U) (k : ℝ) (hk0 : k ≠ 0) (hk1 : k ≠ 1) :
    unitGet w k 0 = .ok (U.affine w k 0) := by
  rw [unitGet, if_neg (by simp [hk1]), affineConstruct, if_neg hk0, if_neg (by simp [hk1])]

/-- Multiplying an offset affine unit by a canonical unit throws. -/
theorem multiply_offset_affine_canonical (core : U) (f : UFactors) (k b : ℝ) (hb : b ≠ 0) :
    U.multiply (U.affine core k b) (U.canonical f) =
      .error "Multiplication by an offset unit isn't supported" := by
  rw [U.multiply, U.multiplyBy, U.multiplyBy, if_pos hb]

/-- Exponentiating an offset affine unit throws. -/
theorem pow_offset_affine (core : U) (k b : ℝ) (e : ExponentImpl) (hb : b ≠ 0) :
    U.pow (U.affine core k b) e = .error "Exponentiating an offset unit isn't supported" := by
  rw [U.pow, if_pos hb]

/-- A zero-intercept affine unit over a canonical core, multiplied by a
canonical unit: the cores are merged and re-wrapped through the factory with
the same slope and intercept 0. -/
theorem multiply_affine_canonical (g f : UFactors) (k : ℝ) :
    U.multiply (U.affine (U.canonical g) k 0) (U.canonical f) =
      unitGet (U.canonical (canonicalMerge g f)) k 0 := by
  rw [U.multiply, U.multiplyBy, U.multiplyBy, if_neg (by simp), U.multiplyBy]
  rfl

/-- Two zero-intercept affine units over canonical cores multiply to the
merged core re-wrapped with the product of the slopes and intercept 0. -/
theorem multiply_affine_affine (g g2 : UFactors) (k k2 : ℝ) :
    U.multiply (U.affine (U.canonical g) k 0) (U.affine (U.canonical g2) k2 0) =
      unitGet (U.canonical (canonicalMerge g g2)) (k2 * k) 0 := by
  rw [U.multiply, U.multiplyBy, if_neg (by simp), U.multiply, U.multiplyBy]
  rfl

/-- Multiplying by an offset affine operand throws even when this unit's own
intercept is zero. -/
theorem multiply_affine_affine_offset (g g2 : UFactors) (k k2 b2 : ℝ) (hb2 : b2 ≠ 0) :
    U.multiply (U.affine (U.canonical g) k 0) (U.affine (U.canonical g2) k2 b2) =
      .error "Multiplication by an offset unit isn't supported" := by
  rw [U.multiply, U.multiplyBy, if_pos (Or.inl hb2)]

/-- A zero-intercept affine unit over a canonical core raised to a power:
the core's power re-wrapped with the exponentiated slope and intercept 0. -/
theorem pow_affine_canonical (g : UFactors) (k : ℝ) (e : ExponentImpl) :
    U.pow (U.affine (U.canonical g) k 0) e =
      unitGet (U.canonical (canonicalPow g e)) (e.exponentiate k) 0 := by
  rw [U.pow, if_neg (by simp), U.pow]
  rfl

/-- Claim C9 (amended): `AffineUnit::multiplyBy` and `AffineUnit::pow` throw
a logic error whenever an operand's intercept is non-zero; with zero
intercepts they delegate to the core and re-wrap with intercept 0 — with the
*same* slope only when multiplying by a canonical unit, with the product of
the slopes when multiplying two affine units, and with the slope raised to
the exponent under `pow`. -/
theorem affine_multiply_pow_behavior (g g2 f : UFactors) (k k2 b b2 : ℝ) (e : ExponentImpl)
    (hb : b ≠ 0) (hb2 : b2 ≠ 0) (hk0 : k ≠ 0) (hk1 : k ≠ 1)
    (hkk0 : k2 * k ≠ 0) (hkk1 : k2 * k ≠ 1)
    (he0 : e.exponentiate k ≠ 0) (he1 : e.exponentiate k ≠ 1) :
    U.multiply (U.affine (U.canonical g) k b) (U.canonical f) =
      .error "Multiplication by an offset unit isn't supported" ∧
    U.pow (U.affine (U.canonical g) k b) e =
      .error "Exponentiating an offset unit isn't supported" ∧
    U.multiply (U.affine (U.canonical g) k 0) (U.canonical f) =
      .ok (U.affine (U.canonical (canonicalMerge g f)) k 0) ∧
    U.multiply (U.affine (U.canonical g) k 0) (U.affine (U.canonical g2) k2 0) =
      .ok (U.affine (U.canonical (canonicalMerge g g2)) (k2 * k) 0) ∧
    U.multiply (U.affine (U.canonical g) k 0) (U.affine (U.canonical g2) k2 b2) =
      .error "Multiplication by an offset unit isn't supported" ∧
    U.pow (U.affine (U.canonical g) k 0) e =
      .ok (U.affine (U.canonical (canonicalPow g e)) (e.exponentiate k) 0) :=
  ⟨multiply_offset_affine_canonical (U.canonical g) f k b hb,
    pow_offset_affine (U.canonical g) k b e hb,
    by rw [multiply_affine_canonical, unitGet_wraps _ _ hk0 hk1],
    by rw [multiply_affine_affine, unitGet_wraps _ _ hkk0 hkk1],
    multiply_affine_affine_offset g g2 k k2 b2 hb2,
    by rw [pow_affine_canonical, unitGet_wraps _ _ he0 he1]⟩

/-- The modelled `exponentiate` at slope 2, exponent 2. -/
theorem exponentiate_two_two : ExponentImpl.exponentiate ⟨2, 1⟩ (2 : ℝ) = 4 := by
  rw [ExponentImpl.exponentiate]
  norm_num

/-- Witness for the C9 behavior theorem at slopes 2 and 3, intercept 1,
exponent 2. -/
theorem affine_multiply_pow_behavior_witness :
    U.multiply (U.affine (U.canonical meterF) 2 1) (U.canonical secondF) =
      .error "Multiplication by an offset unit isn't supported" ∧
    U.pow (U.affine (U.canonical meterF) 2 1) ⟨2, 1⟩ =
      .error "Exponentiating an offset unit isn't supported" ∧
    U.multiply (U.affine (U.canonical meterF) 2 0) (U.canonical secondF) =
      .ok (U.affine (U.canonical (canonicalMerge meterF secondF)) 2 0) ∧
    U.multiply (U.affine (U.canonical meterF) 2 0) (U.affine (U.canonical secondF) 3 0) =
      .ok (U.affine (U.canonical (canonicalMerge meterF secondF)) (3 * 2) 0) ∧
    U.multiply (U.affine (U.canonical meterF) 2 0) (U.affine (U.canonical secondF) 3 1) =
      .error "Multiplication by an offset unit isn't supported" ∧
    U.pow (U.affine (U.canonical meterF) 2 0) ⟨2, 1⟩ =
      .ok (U.affine (U.canonical (canonicalPow meterF ⟨2, 1⟩))
        (ExponentImpl.exponentiate ⟨2, 1⟩ 2) 0) :=
  affine_multiply_pow_behavior meterF secondF secondF 2 3 1 1 ⟨2, 1⟩
    (by norm_num) (by norm_num) (by norm_num) (by norm_num) (by norm_num) (by norm_num)
    (by rw [exponentiate_two_two]; norm_num) (by rw [exponentiate_two_two]; norm_num)

/-- Claim C9 (counterexample): multiplying the zero-intercept affine units
`2·meter` and `3·second` yields slope 6 — the product of the slopes, not the
"same slope" the claim describes. -/
theorem affine_multiply_slope_product_counterexample :
    U.multiply (U.affine meterU 2 0) (U.affine secondU 3 0) =
      .ok (U.affine (U.canonical (canonicalMerge meterF secondF)) 6 0) ∧
    canonicalMerge meterF secondF = [(meterInfo, ⟨1, 1⟩), (secondInfo, ⟨1, 1⟩)] ∧
    (6 : ℝ) ≠ 2 ∧ (6 : ℝ) ≠ 3 := by
  refine ⟨?_, by rfl, by norm_num, by norm_num⟩
  rw [show (meterU : U) = U.canonical meterF from rfl,
    show (secondU : U) = U.canonical secondF from rfl,
    multiply_affine_affine, show (3 : ℝ) * 2 = 6 by norm_num,
    unitGet_wraps _ _ (by norm_num) (by norm_num)]

/-- The stored natural logarithm of every base is positive. -/
theorem logVal_pos (lb : LogBase) : 0 < lb.logVal := by
  cases lb
  · exact Real.log_pos (by norm_num)
  · exact one_pos
  · exact Real.log_pos (by norm_num)

/-- The stored natural logarithm of every base is non-zero. -/
theorem logVal_ne_zero (lb : LogBase) : lb.logVal ≠ 0 :=
  (logVal_pos lb).ne'

/-- Rebuilding after unwinding is the identity along any well-formed
chain. -/
theorem psiVal_phiVal (u : U) (hu : u.wf) (x : ℝ) : u.psiVal (u.phiVal x) = x := by
  induction u generalizing x with
  | canonical f => rfl
  | affine core k b ih =>
    obtain ⟨hk, hcore⟩ := hu
    simp only [U.phiVal, U.psiVal, ih hcore]
    field_simp
  | reflog ref lb ih =>
    simp only [U.phiVal, U.psiVal, ih hu]
    rw [Real.log_exp, mul_div_cancel_right₀ _ (logVal_ne_zero lb)]
  | unreflog lb d =>
    simp only [U.phiVal, U.psiVal]
    rw [mul_div_cancel_right₀ _ (logVal_ne_zero lb)]

/-- Unwinding after rebuilding is the identity along any well-formed chain,
on values whose rebuilt intermediates stay positive where `log` is taken. -/
theorem phiVal_psiVal (v : U) (hv : v.wf) (z : ℝ) (hz : v.psiPos z) :
    v.phiVal (v.psiVal z) = z := by
  induction v generalizing z with
  | canonical f => rfl
  | affine core k b ih =>
    obtain ⟨hk, hcore⟩ := hv
    simp only [U.phiVal, U.psiVal]
    rw [add_sub_cancel_right, mul_div_cancel_left₀ _ hk]
    exact ih hcore z hz
  | reflog ref lb ih =>
    obtain ⟨hpos, hps⟩ := hz
    simp only [U.phiVal, U.psiVal]
    rw [div_mul_cancel₀ _ (logVal_ne_zero lb), Real.exp_log hpos]
    exact ih hv z hps
  | unreflog lb d =>
    simp only [U.phiVal, U.psiVal]
    rw [div_mul_cancel₀ _ (logVal_ne_zero lb)]

/-- Destructuring a successful `Except` bind. -/
theorem except_bind_ok {α β : Type} {m : Except String α} {k : α → Except String β} {b : β}
    (h : (m >>= k) = .ok b) : ∃ a, m = .ok a ∧ k a = .ok b := by
  cases m with
  | error e => simp [Bind.bind, Except.bind] at h
  | ok a => exact ⟨a, rfl, by simpa [Bind.bind, Except.bind] using h⟩

/-- Every converter the engine grants evaluates as the input unit's unwind
chain followed by the output unit's rebuild chain, and its `log` domain
condition entails positivity of the rebuilt intermediates. -/
theorem convEval : ∀ (u v : U) (f : Conv), U.getConverterTo u v = .ok f →
    ∀ x : ℝ, f.eval x = v.psiVal (u.phiVal x) ∧ (f.dom x → v.psiPos (u.phiVal x)) := by
  have main := U.getConverterTo.induct
    (fun u v => ∀ f, U.getConverterTo u v = Except.ok f →
      ∀ x : ℝ, f.eval x = v.psiVal (u.phiVal x) ∧ (f.dom x → v.psiPos (u.phiVal x)))
    (fun v i => ∀ g, U.getConverterFrom v i = Except.ok g →
      ∀ x : ℝ, g.eval x = v.psiVal (i.phiVal x) ∧ (g.dom x → v.psiPos (i.phiVal x)))
  intro u v
  refine main ?_ ?_ ?_ ?_ ?_ ?_ ?_ ?_ ?_ ?_ ?_ ?_ ?_ ?_ ?_ ?_ ?_ ?_ ?_ ?_ ?_ u v
  · -- getConverterTo, canonical receiver: defer to the output's from-side
    intro output fcs IH f hf x
    rw [U.getConverterTo] at hf
    exact IH f hf x
  · -- getConverterTo, affine receiver
    intro output core k b IH f hf x
    rw [U.getConverterTo] at hf
    obtain ⟨ob, hok, hif⟩ := except_bind_ok hf
    cases ob with
    | false => simp at hif
    | true =>
      rw [if_pos rfl] at hif
      obtain ⟨c, hc, hpure⟩ := except_bind_ok hif
      simp only [pure, Except.pure, Except.ok.injEq] at hpure
      subst hpure
      simpa only [Conv.eval, Conv.dom, U.phiVal] using IH c hc ((x - b) / k)
  · -- getConverterTo, referenced-log receiver
    intro output ref lb IH f hf x
    rw [U.getConverterTo] at hf
    obtain ⟨c, hc, hpure⟩ := except_bind_ok hf
    simp only [pure, Except.pure, Except.ok.injEq] at hpure
    subst hpure
    simpa only [Conv.eval, Conv.dom, U.phiVal] using IH c hc (Real.exp (x * lb.logVal))
  · -- getConverterTo, unreferenced-log receiver: defer to the output's from-side
    intro output lb d IH f hf x
    rw [U.getConverterTo] at hf
    exact IH f hf x
  · -- getConverterFrom, canonical from canonical, matching factors
    intro f f' heq g hg x
    rw [U.getConverterFrom, if_pos heq] at hg
    obtain rfl : Conv.trivialC = g := by simpa using hg
    exact ⟨rfl, fun _ => trivial⟩
  · -- getConverterFrom, canonical from canonical, mismatched factors
    intro f f' heq g hg x
    rw [U.getConverterFrom, if_neg heq] at hg
    exact Except.noConfusion hg
  · -- getConverterFrom, canonical from affine: logic error
    intro fcs core' k' b' g hg x
    rw [U.getConverterFrom] at hg
    exact Except.noConfusion hg
  · -- getConverterFrom, canonical from referenced log: logic error
    intro fcs ref' lb' g hg x
    rw [U.getConverterFrom] at hg
    exact Except.noConfusion hg
  · -- getConverterFrom, canonical from unreferenced log: logic error
    intro fcs lb' d' g hg x
    rw [U.getConverterFrom] at hg
    exact Except.noConfusion hg
  · -- getConverterFrom, affine from canonical
    intro core k b fcs IH g hg x
    rw [U.getConverterFrom] at hg
    obtain ⟨ob, hok, hif⟩ := except_bind_ok hg
    cases ob with
    | false => simp at hif
    | true =>
      rw [if_pos rfl] at hif
      obtain ⟨c, hc, hpure⟩ := except_bind_ok hif
      simp only [pure, Except.pure, Except.ok.injEq] at hpure
      subst hpure
      obtain ⟨he, hd⟩ := IH c hc x
      refine ⟨?_, ?_⟩
      · simp only [Conv.eval, U.psiVal, he]
      · intro hdc
        exact hd hdc
  · -- getConverterFrom, affine from affine
    intro core k b core' k' b' IH g hg x
    rw [U.getConverterFrom] at hg
    obtain ⟨ob, hok, hif⟩ := except_bind_ok hg
    cases ob with
    | false => simp at hif
    | true =>
      rw [if_pos rfl] at hif
      obtain ⟨c, hc, hpure⟩ := except_bind_ok hif
      simp only [pure, Except.pure, Except.ok.injEq] at hpure
      subst hpure
      obtain ⟨he, hd⟩ := IH c hc x
      refine ⟨?_, ?_⟩
      · simp only [Conv.eval, U.psiVal, he]
      · intro hdc
        exact hd hdc
  · -- getConverterFrom, affine from referenced log
    intro core k b ref' lb' IH g hg x
    rw [U.getConverterFrom] at hg
    obtain ⟨ob, hok, hif⟩ := except_bind_ok hg
    cases ob with
    | false => simp at hif
    | true =>
      rw [if_pos rfl] at hif
      obtain ⟨c, hc, hpure⟩ := except_bind_ok hif
      simp only [pure, Except.pure, Except.ok.injEq] at hpure
      subst hpure
      obtain ⟨he, hd⟩ := IH c hc x
      refine ⟨?_, ?_⟩
      · simp only [Conv.eval, U.psiVal, he]
      · intro hdc
        exact hd hdc
  · -- getConverterFrom, affine from unreferenced log: not defined in source
    intro core k b lb' d' g hg x
    rw [U.getConverterFrom] at hg
    exact Except.noConfusion hg
  · -- getConverterFrom, referenced log from canonical
    intro ref lb fcs IH g hg x
    rw [U.getConverterFrom] at hg
    obtain ⟨ob, hok, hif⟩ := except_bind_ok hg
    cases ob with
    | false => simp at hif
    | true =>
      rw [if_pos rfl] at hif
      obtain ⟨c, hc, hpure⟩ := except_bind_ok hif
      simp only [pure, Except.pure, Except.ok.injEq] at hpure
      subst hpure
      obtain ⟨he, hd⟩ := IH c hc x
      refine ⟨?_, ?_⟩
      · simp only [Conv.eval, U.psiVal, he]
      · rintro ⟨hdc, hpos⟩
        rw [he] at hpos
        exact ⟨hpos, hd hdc⟩
  · -- getConverterFrom, referenced log from affine
    intro ref lb core' k' b' IH g hg x
    rw [U.getConverterFrom] at hg
    obtain ⟨ob, hok, hif⟩ := except_bind_ok hg
    cases ob with
    | false => simp at hif
    | true =>
      rw [if_pos rfl] at hif
      obtain ⟨c, hc, hpure⟩ := except_bind_ok hif
      simp only [pure, Except.pure, Except.ok.injEq] at hpure
      subst hpure
      obtain ⟨he, hd⟩ := IH c hc x
      refine ⟨?_, ?_⟩
      · simp only [Conv.eval, U.psiVal, he]
      · rintro ⟨hdc, hpos⟩
        rw [he] at hpos
        exact ⟨hpos, hd hdc⟩
  · -- getConverterFrom, referenced log from referenced log
    intro ref lb ref' lb' IH g hg x
    rw [U.getConverterFrom] at hg
    obtain ⟨ob, hok, hif⟩ := except_bind_ok hg
    cases ob with
    | false => simp at hif
    | true =>
      rw [if_pos rfl] at hif
      obtain ⟨c, hc, hpure⟩ := except_bind_ok hif
      simp only [pure, Except.pure, Except.ok.injEq] at hpure
      subst hpure
      obtain ⟨he, hd⟩ := IH c hc x
      refine ⟨?_, ?_⟩
      · simp only [Conv.eval, U.psiVal, he]
      · rintro ⟨hdc, hpos⟩
        rw [he] at hpos
        exact ⟨hpos, hd hdc⟩
  · -- getConverterFrom, referenced log from unreferenced log: rejected
    intro ref lb lb' d' g hg x
    rw [U.getConverterFrom] at hg
    exact Except.noConfusion hg
  · -- getConverterFrom, unreferenced log from canonical: rejected
    intro lb d fcs g hg x
    rw [U.getConverterFrom] at hg
    exact Except.noConfusion hg
  · -- getConverterFrom, unreferenced log from affine: rejected
    intro lb d core' k' b' g hg x
    rw [U.getConverterFrom] at hg
    exact Except.noConfusion hg
  · -- getConverterFrom, unreferenced log from referenced log: rejected
    intro lb d ref' lb' g hg x
    rw [U.getConverterFrom] at hg
    exact Except.noConfusion hg
  · -- getConverterFrom, unreferenced log from unreferenced log
    intro lb d lb' d' g hg x
    rw [U.getConverterFrom] at hg
    obtain rfl : Conv.unreflogFrom lb' lb = g := by simpa using hg
    refine ⟨?_, fun _ => trivial⟩
    simp only [Conv.eval, U.psiVal, U.phiVal]
    exact (mul_div_assoc x lb'.logVal lb.logVal).symm

/-- Claim C2: the round-trip law.  For any two well-formed, mutually
convertible units, converting a value to the other unit and back through the
granted converters restores the value exactly, whenever the forward
conversion is within its `log` domain. -/
theorem converter_round_trip (u v : U) (hu : u.wf) (hv : v.wf)
    (_hconv : U.isConvertible u v = .ok true) (f g : Conv)
    (hf : U.getConverterTo u v = .ok f) (hg : U.getConverterTo v u = .ok g)
    (x : ℝ) (hdom : f.dom x) :
    g.eval (f.eval x) = x := by
  obtain ⟨hfe, hfd⟩ := convEval u v f hf x
  have hge := (convEval v u g hg (f.eval x)).1
  rw [hge, hfe, phiVal_psiVal v hv _ (hfd hdom), psiVal_phiVal u hu]

/-- Witness for the round-trip law at the meter-to-meter conversion of 5. -/
theorem converter_round_trip_witness :
    Conv.eval Conv.trivialC (Conv.eval Conv.trivialC 5) = 5 :=
  converter_round_trip meterU meterU trivial trivial
    (by rw [show (meterU : U) = U.canonical meterF from rfl, U.isConvertible,
      U.isConvertibleTo, equalFactors_refl])
    Conv.trivialC Conv.trivialC
    (by rw [show (meterU : U) = U.canonical meterF from rfl, U.getConverterTo,
      U.getConverterFrom, if_pos (equalFactors_refl meterF)])
    (by rw [show (meterU : U) = U.canonical meterF from rfl, U.getConverterTo,
      U.getConverterFrom, if_pos (equalFactors_refl meterF)])
    5 trivial

end Quantity
